import Mathlib

/-!
Shallow embedding of `zeapo/redis-streams-rs` (src/types.rs, src/commands.rs).

The repository is a client layer for the redis "stream" data type.  It
serializes option models (`StreamMaxlen`, `StreamClaimOptions`,
`StreamReadOptions`) into wire tokens, builds command token sequences
(`commands.rs`), and decodes the generic redis wire value (`redis::Value`)
into typed reply records (`types.rs`).

The underlying protocol library (`redis-rs`, pre-RESP3 era, matching the
`Value::Bulk` / `Value::Data` naming used by the repository) supplies the
`Value` union and the generic `FromRedisValue` decoders for strings,
numbers, vectors, hash maps and tuples.  Those collaborators are embedded
here faithfully to that library's semantics:
 - strings decode from `Data`, `Status`, `Okay`; everything else is a type
   error;
 - numbers decode from `Int` (an `as usize` bit cast, modelled as mod 2^64)
   or from a `Data` string via `str::parse::<usize>`;
 - `Vec<T>` decodes from `Bulk` element-wise, from `Nil` as the empty
   vector, and fails on anything else (the `Data` case only succeeds for
   `Vec<u8>`, which the repository never requests);
 - `HashMap<K, V>` decodes from `Bulk` by pairing consecutive items
   (a trailing odd item is silently dropped, later duplicate keys
   overwrite earlier ones); any other shape is a type error;
 - an n-tuple decodes from a `Bulk` of exactly n items, positionally.

Bulk-string payloads are modelled as `String` (valid UTF-8 assumed) and
`usize` as unbounded `Nat` (the repository only moves small counts;
parse-overflow is out of scope).  Rust `HashMap` iteration order is
unspecified; the model iterates in first-insertion order, which coincides
with wire order on the single-entry mappings the reply grammar uses.
Decoders whose Rust bodies can panic (slice indexing in the pending
decoders) return `Option (RedisResult _)`, where `none` models the panic.
-/

namespace RedisStreams

/-- The generic wire value of the protocol library (`redis::Value`). -/
inductive Value where
  | Nil : Value
  | Int : Int → Value
  | Data : String → Value
  | Bulk : List Value → Value
  | Status : String → Value
  | Okay : Value

/-- Decode-layer errors.  Every error this layer produces is the protocol
library's `TypeError` kind, i.e. the spec's ShapeMismatch: the wire value's
structural kind does not match what the target type expects. -/
inductive RedisError where
  | TypeError : String → RedisError

/-- `RedisResult<T>` from the protocol library. -/
abbrev RedisResult (α : Type) : Type := Except RedisError α

/-- `std::collections::HashMap` with `String` keys, as used by the decode
layer: an association list with unique keys, kept in first-insertion order
(a refinement of Rust's unspecified iteration order; the reply shapes that
are iterated are single-entry mappings, where every order agrees). -/
structure HashMap (α : Type) where
  pairs : List (String × α) := []

/-- `HashMap::insert`: overwrite the value if the key exists, append
otherwise. -/
def HashMap.insert (m : HashMap α) (k : String) (v : α) : HashMap α :=
  if m.pairs.any (fun p => p.1 = k) then
    ⟨m.pairs.map (fun p => if p.1 = k then (k, v) else p)⟩
  else
    ⟨m.pairs ++ [(k, v)]⟩

/-- `HashMap::get`. -/
def HashMap.get (m : HashMap α) (k : String) : Option α :=
  (m.pairs.find? (fun p => p.1 = k)).map (fun p => p.2)

/-- Build a map by inserting a list of pairs left to right. -/
def HashMap.ofList (l : List (String × α)) : HashMap α :=
  l.foldl (fun m p => m.insert p.1 p.2) ⟨[]⟩

/-- `i64 as usize`: a two's-complement bit cast, i.e. reduction mod 2^64. -/
def usizeOfInt (i : Int) : Nat :=
  (i % (2 : Int) ^ 64).toNat

/-- `str::parse::<usize>`: an optional leading `+` sign followed by a
non-empty run of decimal digits (overflow ignored in the unbounded model). -/
def parseUsize (s : String) : Option Nat :=
  let cs := match s.data with
    | c :: rest => if c = '+' then rest else s.data
    | [] => []
  if cs.isEmpty then none
  else if cs.all Char.isDigit then
    some (cs.foldl (fun n c => n * 10 + (c.toNat - 48)) 0)
  else none

/-- `FromRedisValue for String`. -/
def fromValueString : Value → RedisResult String
  | .Data s => .ok s
  | .Okay => .ok "OK"
  | .Status s => .ok s
  | _ => .error (.TypeError "Response type not string compatible.")

/-- `FromRedisValue` for `usize`. -/
def fromValueUsize : Value → RedisResult Nat
  | .Int i => .ok (usizeOfInt i)
  | .Data s =>
    match parseUsize s with
    | some n => .ok n
    | none => .error (.TypeError "Could not convert from string.")
  | _ => .error (.TypeError "Response type not convertible to numeric.")

/-- `FromRedisValue for Value`: a clone. -/
def fromValueValue : Value → RedisResult Value :=
  fun v => .ok v

/-- `FromRedisValue for Vec<T>` (for the non-`u8` element types the
repository uses, where the `Data` fallback always fails). -/
def fromValueVec (f : Value → RedisResult α) : Value → RedisResult (List α)
  | .Bulk items => items.mapM f
  | .Nil => .ok []
  | _ => .error (.TypeError "Response type not vector compatible.")

/-- Pair up consecutive list elements, dropping a trailing odd element. -/
def pairUp : List Value → List (Value × Value)
  | k :: v :: rest => (k, v) :: pairUp rest
  | _ => []

/-- `FromRedisValue for HashMap<String, V>`. -/
def fromValueHashMap (f : Value → RedisResult α) : Value → RedisResult (HashMap α)
  | .Bulk items =>
    (pairUp items).foldlM
      (fun m kv => do
        let k ← fromValueString kv.1
        let v ← f kv.2
        pure (m.insert k v))
      ⟨[]⟩
  | _ => .error (.TypeError "Response type not hashmap compatible")

/-- `FromRedisValue` for a pair: a `Bulk` of exactly two items. -/
def fromValuePair (f : Value → RedisResult α) (g : Value → RedisResult β) :
    Value → RedisResult (α × β)
  | .Bulk [a, b] => do
    let x ← f a
    let y ← g b
    pure (x, y)
  | .Bulk _ => .error (.TypeError "Bulk response of wrong dimension")
  | _ => .error (.TypeError "Not a bulk response")

/-- `FromRedisValue` for a 4-tuple: a `Bulk` of exactly four items. -/
def fromValueQuad (f : Value → RedisResult α) (g : Value → RedisResult β)
    (h : Value → RedisResult γ) (k : Value → RedisResult δ) :
    Value → RedisResult (α × β × γ × δ)
  | .Bulk [a, b, c, d] => do
    let x ← f a
    let y ← g b
    let z ← h c
    let w ← k d
    pure (x, y, z, w)
  | .Bulk _ => .error (.TypeError "Bulk response of wrong dimension")
  | _ => .error (.TypeError "Not a bulk response")

/-! ### Option models (src/types.rs) -/

/-- `StreamMaxlen`: the trim policy (`Aprrox` is the source's spelling). -/
inductive StreamMaxlen where
  | Equals : Nat → StreamMaxlen
  | Aprrox : Nat → StreamMaxlen
deriving DecidableEq

/-- `ToRedisArgs for StreamMaxlen`: `MAXLEN`, then the mode character, then
the count. -/
def StreamMaxlen.write_redis_args (m : StreamMaxlen) : List String :=
  let cv := match m with
    | .Equals v => ("=", v)
    | .Aprrox v => ("~", v)
  ["MAXLEN", cv.1, Nat.repr cv.2]

/-- `StreamClaimOptions` (all fields default absent / false). -/
structure StreamClaimOptions where
  idle : Option Nat := none
  time : Option Nat := none
  retry : Option Nat := none
  force : Bool := false
  justid : Bool := false

/-- Builder `StreamClaimOptions::idle`. -/
def StreamClaimOptions.setIdle (o : StreamClaimOptions) (ms : Nat) : StreamClaimOptions :=
  { o with idle := some ms }

/-- Builder `StreamClaimOptions::time`. -/
def StreamClaimOptions.setTime (o : StreamClaimOptions) (ms_time : Nat) : StreamClaimOptions :=
  { o with time := some ms_time }

/-- Builder `StreamClaimOptions::retry`. -/
def StreamClaimOptions.setRetry (o : StreamClaimOptions) (count : Nat) : StreamClaimOptions :=
  { o with retry := some count }

/-- Builder `StreamClaimOptions::with_force`. -/
def StreamClaimOptions.with_force (o : StreamClaimOptions) : StreamClaimOptions :=
  { o with force := true }

/-- Builder `StreamClaimOptions::with_justid`. -/
def StreamClaimOptions.with_justid (o : StreamClaimOptions) : StreamClaimOptions :=
  { o with justid := true }

/-- `ToRedisArgs for StreamClaimOptions`: the sequence of conditional
`write_arg` calls on the output buffer, in source order. -/
def StreamClaimOptions.write_redis_args (o : StreamClaimOptions) : List String :=
  let out : List String := []
  let out := match o.idle with
    | some ms => out ++ ["IDLE", Nat.repr ms]
    | none => out
  let out := match o.time with
    | some ms_time => out ++ ["TIME", Nat.repr ms_time]
    | none => out
  let out := match o.retry with
    | some count => out ++ ["RETRYCOUNT", Nat.repr count]
    | none => out
  let out := if o.force then out ++ ["FORCE"] else out
  let out := if o.justid then out ++ ["JUSTID"] else out
  out

/-- `StreamReadOptions`: `group` holds the pre-encoded token lists of the
group name and the consumer name. -/
structure StreamReadOptions where
  block : Option Nat := none
  count : Option Nat := none
  group : Option (List String × List String) := none

/-- `StreamReadOptions::read_only`: no consumer-group binding. -/
def StreamReadOptions.read_only (o : StreamReadOptions) : Bool :=
  o.group.isNone

/-- Builder `StreamReadOptions::block`. -/
def StreamReadOptions.setBlock (o : StreamReadOptions) (ms : Nat) : StreamReadOptions :=
  { o with block := some ms }

/-- Builder `StreamReadOptions::count`. -/
def StreamReadOptions.setCount (o : StreamReadOptions) (n : Nat) : StreamReadOptions :=
  { o with count := some n }

/-- Builder `StreamReadOptions::group`. -/
def StreamReadOptions.setGroup (o : StreamReadOptions)
    (group_name consumer_name : List String) : StreamReadOptions :=
  { o with group := some (group_name, consumer_name) }

/-- `ToRedisArgs for StreamReadOptions`: conditional `write_arg` calls in
source order (`BLOCK`, `COUNT`, then `GROUP` with both token lists). -/
def StreamReadOptions.write_redis_args (o : StreamReadOptions) : List String :=
  let out : List String := []
  let out := match o.block with
    | some ms => out ++ ["BLOCK", Nat.repr ms]
    | none => out
  let out := match o.count with
    | some n => out ++ ["COUNT", Nat.repr n]
    | none => out
  let out := match o.group with
    | some group => out ++ ["GROUP"] ++ group.1 ++ group.2
    | none => out
  out

/-! ### Command encoder (src/commands.rs) -/

/-- `xread_options`: the command name is `XREAD` when the options are
read-only (no group binding) and `XREADGROUP` otherwise, followed by the
option tokens, `STREAMS`, the keys and the ids. -/
def xread_options (keys ids : List String) (options : StreamReadOptions) : List String :=
  [if options.read_only then "XREAD" else "XREADGROUP"]
    ++ options.write_redis_args ++ ["STREAMS"] ++ keys ++ ids

/-- `xadd_maxlen`: `XADD key <maxlen tokens> id <field value ...>`. -/
def xadd_maxlen (key : String) (maxlen : StreamMaxlen) (id : String)
    (items : List (String × String)) : List String :=
  ["XADD", key] ++ maxlen.write_redis_args ++ [id]
    ++ items.flatMap (fun fv => [fv.1, fv.2])

/-- `xtrim`: `XTRIM key <maxlen tokens>`. -/
def xtrim (key : String) (maxlen : StreamMaxlen) : List String :=
  ["XTRIM", key] ++ maxlen.write_redis_args

/-! ### Typed reply model (src/types.rs) -/

/-- `StreamId`: one stream entry, an id plus a field map. -/
structure StreamId where
  id : String := ""
  map : HashMap Value := {}

/-- `StreamKey`: a stream key name plus its entries. -/
structure StreamKey where
  key : String := ""
  ids : List StreamId := []

/-- `StreamKey::just_ids`. -/
def StreamKey.just_ids (k : StreamKey) : List String :=
  k.ids.map (fun msg => msg.id)

/-- `StreamReadReply`. -/
structure StreamReadReply where
  keys : List StreamKey := []

/-- `StreamRangeReply`. -/
structure StreamRangeReply where
  ids : List StreamId := []

/-- `StreamClaimReply`. -/
structure StreamClaimReply where
  ids : List StreamId := []

/-- `StreamInfoConsumer`. -/
structure StreamInfoConsumer where
  name : String := ""
  pending : Nat := 0
  idle : Nat := 0
deriving DecidableEq

/-- `StreamInfoGroup`. -/
structure StreamInfoGroup where
  name : String := ""
  consumers : Nat := 0
  pending : Nat := 0
  last_delivered_id : String := ""
deriving DecidableEq

/-- `StreamPendingReply`. -/
structure StreamPendingReply where
  count : Nat := 0
  start_id : String := ""
  end_id : String := ""
  consumers : List StreamInfoConsumer := []
deriving DecidableEq

/-- `StreamPendingId`. -/
structure StreamPendingId where
  id : String := ""
  consumer : String := ""
  last_delivered_ms : Nat := 0
  times_delivered : Nat := 0
deriving DecidableEq

/-- `StreamPendingCountReply`. -/
structure StreamPendingCountReply where
  ids : List StreamPendingId := []
deriving DecidableEq

/-- `StreamInfoStreamsReply`. -/
structure StreamInfoStreamsReply where
  last_generated_id : String := ""
  radix_tree_keys : Nat := 0
  groups : Nat := 0
  length : Nat := 0
  first_entry : StreamId := {}
  last_entry : StreamId := {}

/-- `StreamInfoConsumersReply`. -/
structure StreamInfoConsumersReply where
  consumers : List StreamInfoConsumer := []
deriving DecidableEq

/-- `StreamInfoGroupsReply`. -/
structure StreamInfoGroupsReply where
  groups : List StreamInfoGroup := []
deriving DecidableEq

/-! ### Reply decoders (src/types.rs, `FromRedisValue` impls) -/

/-- `StreamId::from_bulk_value`: on a `Bulk`, decode the id from element 0
(when present) and the field map from element 1 (when present); on any
other shape, fall through to the default entry.  Always `Ok` unless an
element decode fails. -/
def StreamId.from_bulk_value : Value → RedisResult StreamId
  | .Bulk values => do
    let id ← match values[0]? with
      | some v0 => fromValueString v0
      | none => pure ""
    let map ← match values[1]? with
      | some v1 => fromValueHashMap fromValueValue v1
      | none => pure {}
    pure { id := id, map := map }
  | _ => .ok {}

/-- `StreamId::find`. -/
def StreamId.find (s : StreamId) (key : String) : Option Value :=
  s.map.get key

/-- `StreamId::get::<T>`: typed lookup, parameterised by the target type's
decoder; a failed conversion becomes `none` via `Result::ok`. -/
def StreamId.get (s : StreamId) (f : Value → RedisResult α) (key : String) : Option α :=
  match s.find key with
  | some x => (f x).toOption
  | none => none

/-- `StreamId::contains_key`. -/
def StreamId.contains_key (s : StreamId) (key : String) : Bool :=
  (s.find key).isSome

/-- `StreamId::len`. -/
def StreamId.len (s : StreamId) : Nat :=
  s.map.pairs.length

/-- `FromRedisValue for StreamReadReply`: decode to
`Vec<HashMap<String, Vec<HashMap<String, HashMap<String, Value>>>>>`, then
flatten; the innermost per-entry loop overwrites a default `StreamId` with
each mapping pair in turn. -/
def StreamReadReply.from_redis_value (v : Value) : RedisResult StreamReadReply := do
  let rows ← fromValueVec
    (fromValueHashMap (fromValueVec (fromValueHashMap (fromValueHashMap fromValueValue)))) v
  pure { keys := rows.flatMap (fun row =>
    row.pairs.map (fun ke =>
      { key := ke.1
        ids := ke.2.map (fun id_row =>
          id_row.pairs.foldl (fun _ im => { id := im.1, map := im.2 }) {}) })) }

/-- `FromRedisValue for StreamRangeReply`: decode to
`Vec<HashMap<String, HashMap<String, Value>>>` and collapse each row map
into one `StreamId` (last iterated pair wins, default when empty). -/
def StreamRangeReply.from_redis_value (v : Value) : RedisResult StreamRangeReply := do
  let rows ← fromValueVec (fromValueHashMap (fromValueHashMap fromValueValue)) v
  pure { ids := rows.map (fun row =>
    row.pairs.foldl (fun _ im => ({ id := im.1, map := im.2 } : StreamId)) {}) }

/-- `FromRedisValue for StreamClaimReply`: same shape as the range reply. -/
def StreamClaimReply.from_redis_value (v : Value) : RedisResult StreamClaimReply := do
  let rows ← fromValueVec (fromValueHashMap (fromValueHashMap fromValueValue)) v
  pure { ids := rows.map (fun row =>
    row.pairs.foldl (fun _ im => ({ id := im.1, map := im.2 } : StreamId)) {}) }

/-- One `XPENDING` summary consumer row: `consumer[0]` is the name and
`consumer[1]` the pending count string (`none` models the out-of-bounds
panic); a non-numeric count string leaves `pending` at the default 0. -/
def buildPendingConsumer (consumer : List String) : Option StreamInfoConsumer := do
  let name ← consumer[0]?
  let pstr ← consumer[1]?
  pure { name := name
         pending := match parseUsize pstr with
           | some v => v
           | none => 0
         idle := 0 }

/-- `FromRedisValue for StreamPendingReply`: decode the fixed 4-tuple
`(usize, String, String, Vec<Vec<String>>)`, then build one consumer per
row.  `none` models the panic on a too-short consumer row. -/
def StreamPendingReply.from_redis_value (v : Value) :
    Option (RedisResult StreamPendingReply) :=
  match fromValueQuad fromValueUsize fromValueString fromValueString
      (fromValueVec (fromValueVec fromValueString)) v with
  | .error e => some (.error e)
  | .ok parts =>
    match parts.2.2.2.mapM buildPendingConsumer with
    | some consumers => some (.ok
        { count := parts.1
          start_id := parts.2.1
          end_id := parts.2.2.1
          consumers := consumers })
    | none => none

/-- One `XPENDING` detail row: built exclusively from the row's first
4-tuple (`row[0]`); `none` models the panic on an empty row. -/
def buildPendingId (row : List (String × String × Nat × Nat)) : Option StreamPendingId := do
  let t ← row[0]?
  pure { id := t.1
         consumer := t.2.1
         last_delivered_ms := t.2.2.1
         times_delivered := t.2.2.2 }

/-- `FromRedisValue for StreamPendingCountReply`: decode to
`Vec<Vec<(String, String, usize, usize)>>`, then take each row's first
tuple.  `none` models the `row[0]` panic on an empty row. -/
def StreamPendingCountReply.from_redis_value (v : Value) :
    Option (RedisResult StreamPendingCountReply) :=
  match fromValueVec (fromValueVec
      (fromValueQuad fromValueString fromValueString fromValueUsize fromValueUsize)) v with
  | .error e => some (.error e)
  | .ok parts =>
    match parts.mapM buildPendingId with
    | some ids => some (.ok { ids := ids })
    | none => none

/-- The `if let Some(v) = map.get(name) { field = decode(v)?; }` pattern
of the info decoders: a present field is decoded (errors propagate), an
absent field keeps the record's default. -/
def decodeField (dec : Value → RedisResult α) (dflt : α) : Option Value → RedisResult α
  | some v => dec v
  | none => pure dflt

/-- The field-population phase of `StreamInfoStreamsReply`: each known
field overwrites its default only when present in the wire mapping; a
present field's conversion failure aborts the decode. -/
def StreamInfoStreamsReply.fromMap (map : HashMap Value) :
    RedisResult StreamInfoStreamsReply := do
  let last_generated_id ← decodeField fromValueString "" (map.get "last-generated-id")
  let radix_tree_keys ← decodeField fromValueUsize 0 (map.get "radix-tree-nodes")
  let groups ← decodeField fromValueUsize 0 (map.get "groups")
  let length ← decodeField fromValueUsize 0 (map.get "length")
  let first_entry ← decodeField StreamId.from_bulk_value {} (map.get "first-entry")
  let last_entry ← decodeField StreamId.from_bulk_value {} (map.get "last-entry")
  pure { last_generated_id, radix_tree_keys, groups, length, first_entry, last_entry }

/-- `FromRedisValue for StreamInfoStreamsReply`: decode the top-level
`HashMap<String, Value>` then populate the known fields. -/
def StreamInfoStreamsReply.from_redis_value (v : Value) :
    RedisResult StreamInfoStreamsReply := do
  let map ← fromValueHashMap fromValueValue v
  StreamInfoStreamsReply.fromMap map

/-- One consumer record of `XINFO CONSUMERS` (fields read in source order:
name, pending, idle; absent fields keep their defaults). -/
def StreamInfoConsumer.fromMap (map : HashMap Value) : RedisResult StreamInfoConsumer := do
  let name ← decodeField fromValueString "" (map.get "name")
  let pending ← decodeField fromValueUsize 0 (map.get "pending")
  let idle ← decodeField fromValueUsize 0 (map.get "idle")
  pure { name, pending, idle }

/-- `FromRedisValue for StreamInfoConsumersReply`. -/
def StreamInfoConsumersReply.from_redis_value (v : Value) :
    RedisResult StreamInfoConsumersReply := do
  let maps ← fromValueVec (fromValueHashMap fromValueValue) v
  let cs ← maps.mapM StreamInfoConsumer.fromMap
  pure { consumers := cs }

/-- One group record of `XINFO GROUPS` (fields read in source order:
name, pending, consumers, last-delivered-id). -/
def StreamInfoGroup.fromMap (map : HashMap Value) : RedisResult StreamInfoGroup := do
  let name ← decodeField fromValueString "" (map.get "name")
  let pending ← decodeField fromValueUsize 0 (map.get "pending")
  let consumers ← decodeField fromValueUsize 0 (map.get "consumers")
  let last_delivered_id ← decodeField fromValueString "" (map.get "last-delivered-id")
  pure { name, consumers, pending, last_delivered_id }

/-- `FromRedisValue for StreamInfoGroupsReply`. -/
def StreamInfoGroupsReply.from_redis_value (v : Value) :
    RedisResult StreamInfoGroupsReply := do
  let maps ← fromValueVec (fromValueHashMap fromValueValue) v
  let gs ← maps.mapM StreamInfoGroup.fromMap
  pure { groups := gs }

/-! ### Shape predicates and well-formed wire-value constructors

These are specification-side: they classify or build wire values so the
theorems can quantify over well-formed reply shapes. -/

/-- A scalar wire value: integer, bulk string, or status (`Okay` is the
canned `+OK` status).  Sequences (`Bulk`) and `Nil` are not scalars. -/
def Value.isScalar : Value → Bool
  | .Int _ => true
  | .Data _ => true
  | .Status _ => true
  | .Okay => true
  | _ => false

/-- Whether a wire value is a sequence. -/
def Value.isBulk : Value → Bool
  | .Bulk _ => true
  | _ => false

/-- The wire tokens of one entry's field map: alternating field-name /
value bulk strings. -/
def mkFieldTokens (fs : List (String × String)) : List Value :=
  fs.flatMap (fun p => [Value.Data p.1, Value.Data p.2])

/-- The wire value of one stream entry: `[id, field-map]`. -/
def mkEntryValue (id : String) (fs : List (String × String)) : Value :=
  Value.Bulk [Value.Data id, Value.Bulk (mkFieldTokens fs)]

/-- The wire value of one read-reply row: a single-entry mapping of the
key name to its entry sequence. -/
def mkKeyValue (key : String) (entries : List (String × List (String × String))) : Value :=
  Value.Bulk [Value.Data key, Value.Bulk (entries.map (fun e => mkEntryValue e.1 e.2))]

/-- A well-formed read-reply wire value: an ordered sequence of
single-entry key mappings. -/
def mkReadReplyValue (ks : List (String × List (String × List (String × String)))) : Value :=
  Value.Bulk (ks.map (fun k => mkKeyValue k.1 k.2))

/-- The `StreamKey` a well-formed read-reply key should decode to:
the key name, then one entry per wire entry in order, each with the wire
field map (later duplicate fields overwriting earlier ones). -/
def expectedKey (k : String × List (String × List (String × String))) : StreamKey :=
  { key := k.1
    ids := k.2.map (fun e =>
      { id := e.1
        map := HashMap.ofList (e.2.map (fun p => (p.1, Value.Data p.2))) }) }

/-- A well-formed pending-summary wire value:
`(count, start id, end id, sequence of [consumer, pending-count-string])`. -/
def mkPendingSummaryValue (count : Nat) (sid eid : String)
    (consumers : List (String × String)) : Value :=
  Value.Bulk [Value.Int count, Value.Data sid, Value.Data eid,
    Value.Bulk (consumers.map (fun c => Value.Bulk [Value.Data c.1, Value.Data c.2]))]

/-- Modelled from the spec: the repository ships no token parser; the
spec's round-trip property (§8) reads the trim-policy token sequence
`MAXLEN`, mode character (`=` exact, `~` approximate), count back into a
`StreamMaxlen`. -/
def parseMaxlenTokens (tokens : List String) : Option StreamMaxlen :=
  match tokens with
  | [kw, mode, count] =>
    if kw = "MAXLEN" then
      match parseUsize count with
      | some n =>
        if mode = "=" then some (StreamMaxlen.Equals n)
        else if mode = "~" then some (StreamMaxlen.Aprrox n)
        else none
      | none => none
    else none
  | _ => none

/-- Specification-side rendering of an optional numeric field: the field
token followed by the value, or nothing at all when unset. -/
def optTokens (name : String) : Option Nat → List String
  | some v => [name, Nat.repr v]
  | none => []

/-- Specification-side rendering of a boolean flag: a bare token, or
nothing. -/
def flagTokens (name : String) : Bool → List String
  | true => [name]
  | false => []

/-- Specification-side rendering of the consumer-group binding: `GROUP`
followed by the group-name and consumer-name tokens, or nothing. -/
def groupTokens : Option (List String × List String) → List String
  | some g => ["GROUP"] ++ g.1 ++ g.2
  | none => []

/-! ### Helper lemmas -/

theorem mapM_map_except {α β γ : Type} (f : β → RedisResult γ) (enc : α → β) (g : α → γ)
    (l : List α) (h : ∀ a ∈ l, f (enc a) = .ok (g a)) :
    (l.map enc).mapM f = .ok (l.map g) := by
  induction l with
  | nil => rfl
  | cons a l ih =>
    simp only [List.map_cons, List.mapM_cons, h a (List.mem_cons_self a l),
      ih (fun x hx => h x (List.mem_cons_of_mem a hx))]
    rfl

theorem mapM_map_option {α β γ : Type} (f : β → Option γ) (enc : α → β) (g : α → γ)
    (l : List α) (h : ∀ a ∈ l, f (enc a) = some (g a)) :
    (l.map enc).mapM f = some (l.map g) := by
  induction l with
  | nil => rfl
  | cons a l ih =>
    simp only [List.map_cons, List.mapM_cons, h a (List.mem_cons_self a l),
      ih (fun x hx => h x (List.mem_cons_of_mem a hx))]
    rfl

theorem mapM_option_some {α β : Type} (f : α → Option β) (g : α → β)
    (l : List α) (h : ∀ a ∈ l, f a = some (g a)) :
    l.mapM f = some (l.map g) := by
  induction l with
  | nil => rfl
  | cons a l ih =>
    simp only [List.mapM_cons, h a (List.mem_cons_self a l), List.map_cons,
      ih (fun x hx => h x (List.mem_cons_of_mem a hx))]
    rfl

theorem foldlM_map_except_ok {α α' β : Type} (f : β → α' → RedisResult β) (enc : α → α')
    (g : β → α → β) (l : List α) (init : β)
    (h : ∀ b, ∀ a ∈ l, f b (enc a) = .ok (g b a)) :
    (l.map enc).foldlM f init = .ok (l.foldl g init) := by
  induction l generalizing init with
  | nil => rfl
  | cons a l ih =>
    simp only [List.map_cons, List.foldlM_cons, h init a (List.mem_cons_self a l),
      List.foldl_cons]
    exact ih (g init a) (fun b x hx => h b x (List.mem_cons_of_mem a hx))

/-! #### Decimal rendering round-trip -/

theorem digitChar_isDigit {k : Nat} (h : k < 10) : (Nat.digitChar k).isDigit = true := by
  interval_cases k <;> decide

theorem digitChar_toNat {k : Nat} (h : k < 10) : (Nat.digitChar k).toNat = 48 + k := by
  interval_cases k <;> decide

theorem toDigitsCore_append (fuel : Nat) :
    ∀ (n : Nat) (acc : List Char),
      Nat.toDigitsCore 10 fuel n acc = Nat.toDigitsCore 10 fuel n [] ++ acc := by
  induction fuel with
  | zero => intro n acc; simp [Nat.toDigitsCore]
  | succ fuel ih =>
    intro n acc
    simp only [Nat.toDigitsCore]
    by_cases h : n / 10 = 0
    · simp [h]
    · simp only [if_neg h]
      rw [ih (n / 10) (Nat.digitChar (n % 10) :: acc), ih (n / 10) [Nat.digitChar (n % 10)]]
      simp

theorem toDigitsCore_fuel (n : Nat) :
    ∀ f1 f2 : Nat, n < f1 → n < f2 →
      Nat.toDigitsCore 10 f1 n [] = Nat.toDigitsCore 10 f2 n [] := by
  induction n using Nat.strong_induction_on with
  | _ n ih =>
    intro f1 f2 h1 h2
    cases f1 with
    | zero => omega
    | succ f1 =>
      cases f2 with
      | zero => omega
      | succ f2 =>
        simp only [Nat.toDigitsCore]
        by_cases h : n / 10 = 0
        · simp [h]
        · simp only [if_neg h]
          rw [toDigitsCore_append f1, toDigitsCore_append f2]
          have hn : n / 10 < n := Nat.div_lt_self (by omega) (by omega)
          rw [ih (n / 10) hn f1 f2 (by omega) (by omega)]

theorem toDigits_lt10 {n : Nat} (h : n < 10) : Nat.toDigits 10 n = [Nat.digitChar n] := by
  simp [Nat.toDigits, Nat.toDigitsCore, Nat.div_eq_of_lt h, Nat.mod_eq_of_lt h]

theorem toDigits_ge10 {n : Nat} (h : 10 ≤ n) :
    Nat.toDigits 10 n = Nat.toDigits 10 (n / 10) ++ [Nat.digitChar (n % 10)] := by
  have h0 : ¬ n / 10 = 0 := by omega
  have hlt : n / 10 < n := Nat.div_lt_self (by omega) (by omega)
  show Nat.toDigitsCore 10 (n + 1) n [] = _
  simp only [Nat.toDigitsCore, if_neg h0]
  rw [toDigitsCore_append n]
  rw [toDigitsCore_fuel (n / 10) n (n / 10 + 1) hlt (by omega)]
  rfl

theorem toDigits_ne_nil (n : Nat) : Nat.toDigits 10 n ≠ [] := by
  rcases Nat.lt_or_ge n 10 with h | h
  · rw [toDigits_lt10 h]; simp
  · rw [toDigits_ge10 h]; simp

theorem toDigits_all_digit (n : Nat) : ∀ c ∈ Nat.toDigits 10 n, c.isDigit = true := by
  induction n using Nat.strong_induction_on with
  | _ n ih =>
    rcases Nat.lt_or_ge n 10 with h | h
    · rw [toDigits_lt10 h]
      intro c hc
      simp only [List.mem_singleton] at hc
      subst hc
      exact digitChar_isDigit h
    · rw [toDigits_ge10 h]
      intro c hc
      rcases List.mem_append.mp hc with hc | hc
      · exact ih (n / 10) (Nat.div_lt_self (by omega) (by omega)) c hc
      · simp only [List.mem_singleton] at hc
        subst hc
        exact digitChar_isDigit (Nat.mod_lt n (by omega))

theorem toDigits_foldl (n : Nat) :
    ∀ a : Nat, (Nat.toDigits 10 n).foldl (fun acc c => acc * 10 + (c.toNat - 48)) a
      = a * 10 ^ (Nat.toDigits 10 n).length + n := by
  induction n using Nat.strong_induction_on with
  | _ n ih =>
    intro a
    rcases Nat.lt_or_ge n 10 with h | h
    · rw [toDigits_lt10 h]
      simp [digitChar_toNat h]
    · have hlt : n / 10 < n := Nat.div_lt_self (by omega) (by omega)
      rw [toDigits_ge10 h]
      rw [List.foldl_append, ih (n / 10) hlt a]
      simp only [List.foldl_cons, List.foldl_nil, List.length_append, List.length_cons,
        List.length_nil, digitChar_toNat (Nat.mod_lt n (by omega))]
      have hp : a * 10 ^ ((Nat.toDigits 10 (n / 10)).length + (0 + 1))
          = a * 10 ^ (Nat.toDigits 10 (n / 10)).length * 10 := by ring
      rw [hp]
      generalize a * 10 ^ (Nat.toDigits 10 (n / 10)).length = q
      omega

theorem parseUsize_repr (n : Nat) : parseUsize (Nat.repr n) = some n := by
  have hD := toDigits_all_digit n
  have hne := toDigits_ne_nil n
  have hdata : (Nat.repr n).data = Nat.toDigits 10 n := rfl
  unfold parseUsize
  rw [hdata]
  cases hT : Nat.toDigits 10 n with
  | nil => exact absurd hT hne
  | cons c rest =>
    have hc : c.isDigit = true := hD c (by rw [hT]; exact List.mem_cons_self c rest)
    have hplus : ¬ c = '+' := by
      intro hcc
      rw [hcc] at hc
      simp at hc
    rw [hT] at hD
    simp only [if_neg hplus, List.isEmpty_cons, Bool.false_eq_true, if_false]
    rw [if_pos (List.all_eq_true.mpr (fun x hx => hD x hx))]
    have := toDigits_foldl n 0
    rw [hT] at this
    simp only [this, Nat.zero_mul, Nat.zero_add]

@[simp] theorem exceptBind_ok {ε α β : Type} (a : α) (f : α → Except ε β) :
    (Except.ok a >>= f) = f a := rfl

@[simp] theorem exceptBind_error {ε α β : Type} (e : ε) (f : α → Except ε β) :
    ((Except.error e : Except ε α) >>= f) = Except.error e := rfl

@[simp] theorem exceptPure {ε α : Type} (a : α) :
    (pure a : Except ε α) = Except.ok a := rfl

/-- Characterization of a successful stream-info populate: each field of
the result is exactly what its conditional decode produced. -/
theorem fromMap_fields (map : HashMap Value) (r : StreamInfoStreamsReply)
    (h : StreamInfoStreamsReply.fromMap map = .ok r) :
    decodeField fromValueString "" (map.get "last-generated-id")
        = .ok r.last_generated_id ∧
    decodeField fromValueUsize 0 (map.get "radix-tree-nodes") = .ok r.radix_tree_keys ∧
    decodeField fromValueUsize 0 (map.get "groups") = .ok r.groups ∧
    decodeField fromValueUsize 0 (map.get "length") = .ok r.length ∧
    decodeField StreamId.from_bulk_value {} (map.get "first-entry")
        = .ok r.first_entry ∧
    decodeField StreamId.from_bulk_value {} (map.get "last-entry")
        = .ok r.last_entry := by
  unfold StreamInfoStreamsReply.fromMap at h
  cases h1 : decodeField fromValueString "" (map.get "last-generated-id") with
  | error e => rw [h1] at h; simp at h
  | ok lg =>
  rw [h1] at h
  simp only [exceptBind_ok] at h
  cases h2 : decodeField fromValueUsize 0 (map.get "radix-tree-nodes") with
  | error e => rw [h2] at h; simp at h
  | ok rt =>
  rw [h2] at h
  simp only [exceptBind_ok] at h
  cases h3 : decodeField fromValueUsize 0 (map.get "groups") with
  | error e => rw [h3] at h; simp at h
  | ok gr =>
  rw [h3] at h
  simp only [exceptBind_ok] at h
  cases h4 : decodeField fromValueUsize 0 (map.get "length") with
  | error e => rw [h4] at h; simp at h
  | ok ln =>
  rw [h4] at h
  simp only [exceptBind_ok] at h
  cases h5 : decodeField StreamId.from_bulk_value {} (map.get "first-entry") with
  | error e => rw [h5] at h; simp at h
  | ok fe =>
  rw [h5] at h
  simp only [exceptBind_ok] at h
  cases h6 : decodeField StreamId.from_bulk_value {} (map.get "last-entry") with
  | error e => rw [h6] at h; simp at h
  | ok le =>
  rw [h6] at h
  simp only [exceptBind_ok, exceptPure] at h
  injection h with h
  subst h
  exact ⟨rfl, rfl, rfl, rfl, rfl, rfl⟩

/-! ### Claim theorems -/

/-- Claim C1, counterexample to the claim as stated: nil is a scalar wire
value (not a sequence), yet decoding it as a read reply does not return a
ShapeMismatch error: it succeeds with the silently defaulted record. -/
theorem nil_read_reply_decodes_to_default :
    StreamReadReply.from_redis_value Value.Nil = .ok { keys := [] } := rfl

/-- Claim C1 (amended): decoding a wire value whose top-level kind is a
non-nil scalar (integer, bulk string, status, or the canned OK status)
returns a ShapeMismatch (type) error for every reply kind, never a panic
and never a defaulted record; a nil wire value, however, decodes the
sequence-shaped reply kinds (read, range, claim, pending detail,
consumers info, groups info) to the empty default record, and only the
tuple-shaped pending summary and the mapping-shaped stream info reject
nil with a ShapeMismatch. -/
theorem scalar_decode_always_type_error :
    (∀ v : Value, v.isScalar = true →
      (∃ e, StreamReadReply.from_redis_value v = .error e) ∧
      (∃ e, StreamRangeReply.from_redis_value v = .error e) ∧
      (∃ e, StreamClaimReply.from_redis_value v = .error e) ∧
      (∃ e, StreamPendingReply.from_redis_value v = some (.error e)) ∧
      (∃ e, StreamPendingCountReply.from_redis_value v = some (.error e)) ∧
      (∃ e, StreamInfoStreamsReply.from_redis_value v = .error e) ∧
      (∃ e, StreamInfoConsumersReply.from_redis_value v = .error e) ∧
      (∃ e, StreamInfoGroupsReply.from_redis_value v = .error e)) ∧
    (StreamReadReply.from_redis_value Value.Nil = .ok { keys := [] } ∧
     StreamRangeReply.from_redis_value Value.Nil = .ok { ids := [] } ∧
     StreamClaimReply.from_redis_value Value.Nil = .ok { ids := [] } ∧
     StreamPendingCountReply.from_redis_value Value.Nil = some (.ok { ids := [] }) ∧
     StreamInfoConsumersReply.from_redis_value Value.Nil = .ok { consumers := [] } ∧
     StreamInfoGroupsReply.from_redis_value Value.Nil = .ok { groups := [] } ∧
     (∃ e, StreamPendingReply.from_redis_value Value.Nil = some (.error e)) ∧
     (∃ e, StreamInfoStreamsReply.from_redis_value Value.Nil = .error e)) := by
  constructor
  · intro v hv
    cases v with
    | Nil => simp [Value.isScalar] at hv
    | Bulk items => simp [Value.isScalar] at hv
    | Int i =>
      exact ⟨⟨_, rfl⟩, ⟨_, rfl⟩, ⟨_, rfl⟩, ⟨_, rfl⟩, ⟨_, rfl⟩, ⟨_, rfl⟩, ⟨_, rfl⟩, ⟨_, rfl⟩⟩
    | Data s =>
      exact ⟨⟨_, rfl⟩, ⟨_, rfl⟩, ⟨_, rfl⟩, ⟨_, rfl⟩, ⟨_, rfl⟩, ⟨_, rfl⟩, ⟨_, rfl⟩, ⟨_, rfl⟩⟩
    | Status s =>
      exact ⟨⟨_, rfl⟩, ⟨_, rfl⟩, ⟨_, rfl⟩, ⟨_, rfl⟩, ⟨_, rfl⟩, ⟨_, rfl⟩, ⟨_, rfl⟩, ⟨_, rfl⟩⟩
    | Okay =>
      exact ⟨⟨_, rfl⟩, ⟨_, rfl⟩, ⟨_, rfl⟩, ⟨_, rfl⟩, ⟨_, rfl⟩, ⟨_, rfl⟩, ⟨_, rfl⟩, ⟨_, rfl⟩⟩
  · exact ⟨rfl, rfl, rfl, rfl, rfl, rfl, ⟨_, rfl⟩, ⟨_, rfl⟩⟩

/-- Witness for the amended claim C1 at the concrete scalar `Int 7`. -/
theorem scalar_decode_always_type_error_witness :
    (Value.Int 7).isScalar = true ∧
    (∃ e, StreamReadReply.from_redis_value (Value.Int 7) = .error e) :=
  ⟨rfl, (scalar_decode_always_type_error.1 (Value.Int 7) rfl).1⟩

/-- Claim C4: the stream-read encoder emits the command name `XREADGROUP`
exactly when the options carry a consumer-group binding, and `XREAD`
exactly when they do not. -/
theorem xread_options_command_name (keys ids : List String) (options : StreamReadOptions) :
    ((xread_options keys ids options).head? = some "XREADGROUP"
        ↔ options.group.isSome = true) ∧
    ((xread_options keys ids options).head? = some "XREAD"
        ↔ options.group = none) := by
  cases hg : options.group with
  | none =>
    simp [xread_options, StreamReadOptions.read_only, hg]
  | some g =>
    simp [xread_options, StreamReadOptions.read_only, hg]

/-- Witness for claim C4: a group binding selects `XREADGROUP`; no binding
selects `XREAD`. -/
theorem xread_options_command_name_witness :
    (xread_options ["k"] ["0"]
        { group := some (["g"], ["c"]) }).head? = some "XREADGROUP" ∧
    (xread_options ["k"] ["0"] {}).head? = some "XREAD" :=
  ⟨(xread_options_command_name ["k"] ["0"] { group := some (["g"], ["c"]) }).1.mpr rfl,
   (xread_options_command_name ["k"] ["0"] {}).2.mpr rfl⟩

/-- Claim C5: a trim policy serializes to exactly `MAXLEN`, the mode
character (`=` exact, `~` approximate), and the count; parsing that token
sequence back recovers the original variant and count. -/
theorem maxlen_tokens_roundtrip (m : StreamMaxlen) :
    (∀ v, m = .Equals v → m.write_redis_args = ["MAXLEN", "=", Nat.repr v]) ∧
    (∀ v, m = .Aprrox v → m.write_redis_args = ["MAXLEN", "~", Nat.repr v]) ∧
    parseMaxlenTokens m.write_redis_args = some m := by
  refine ⟨?_, ?_, ?_⟩
  · rintro v rfl; rfl
  · rintro v rfl; rfl
  · cases m with
    | Equals v =>
      simp [StreamMaxlen.write_redis_args, parseMaxlenTokens, parseUsize_repr]
    | Aprrox v =>
      simp [StreamMaxlen.write_redis_args, parseMaxlenTokens, parseUsize_repr]

/-- Witness for claim C5 at concrete trim policies. -/
theorem maxlen_tokens_roundtrip_witness :
    (StreamMaxlen.Equals 42).write_redis_args = ["MAXLEN", "=", Nat.repr 42] ∧
    parseMaxlenTokens (StreamMaxlen.Aprrox 7).write_redis_args
      = some (StreamMaxlen.Aprrox 7) :=
  ⟨(maxlen_tokens_roundtrip (StreamMaxlen.Equals 42)).1 42 rfl,
   (maxlen_tokens_roundtrip (StreamMaxlen.Aprrox 7)).2.2⟩

/-- Claim C7: both option models serialize exactly the explicitly-set
fields, in the fixed field order (claim options: IDLE, TIME, RETRYCOUNT,
FORCE, JUSTID; read options: BLOCK, COUNT, GROUP name consumer), boolean
flags as bare tokens, unset fields contributing no token. -/
theorem option_models_fixed_order (c : StreamClaimOptions) (r : StreamReadOptions) :
    c.write_redis_args
      = optTokens "IDLE" c.idle ++ optTokens "TIME" c.time
        ++ optTokens "RETRYCOUNT" c.retry
        ++ flagTokens "FORCE" c.force ++ flagTokens "JUSTID" c.justid
    ∧ r.write_redis_args
      = optTokens "BLOCK" r.block ++ optTokens "COUNT" r.count
        ++ groupTokens r.group := by
  constructor
  · rcases c with ⟨i, t, re, f, j⟩
    cases i <;> cases t <;> cases re <;> cases f <;> cases j <;>
      simp [StreamClaimOptions.write_redis_args, optTokens, flagTokens]
  · rcases r with ⟨b, co, g⟩
    cases b <;> cases co <;> cases g <;>
      simp [StreamReadOptions.write_redis_args, optTokens, groupTokens]

/-- Claim C8: typed field lookup is absent (never an error) both when the
field is missing and when its value fails to convert; the membership test
is true exactly when the untyped lookup finds a value. -/
theorem entry_lookup_absent {α : Type} (s : StreamId) (f : Value → RedisResult α)
    (key : String) :
    (s.find key = none → s.get f key = none) ∧
    (∀ v e, s.find key = some v → f v = .error e → s.get f key = none) ∧
    (s.contains_key key = true ↔ ∃ v, s.find key = some v) := by
  refine ⟨?_, ?_, ?_⟩
  · intro h
    simp [StreamId.get, h]
  · intro v e hv hf
    simp [StreamId.get, hv, hf, Except.toOption]
  · simp [StreamId.contains_key, Option.isSome_iff_exists]

/-- Witness for claim C8 on a concrete entry: a missing field and an
unconvertible field both look up as absent, membership sees the present
field. -/
theorem entry_lookup_absent_witness :
    ({ id := "1-1", map := ⟨[("a", Value.Nil)]⟩ } : StreamId).get fromValueString "b"
        = none ∧
    ({ id := "1-1", map := ⟨[("a", Value.Nil)]⟩ } : StreamId).get fromValueString "a"
        = none ∧
    ({ id := "1-1", map := ⟨[("a", Value.Nil)]⟩ } : StreamId).contains_key "a" = true :=
  ⟨(entry_lookup_absent _ fromValueString "b").1 rfl,
   (entry_lookup_absent _ fromValueString "a").2.1 Value.Nil
     (.TypeError "Response type not string compatible.") rfl rfl,
   (entry_lookup_absent _ fromValueString "a").2.2.mpr ⟨Value.Nil, rfl⟩⟩

/-- Claim C6: every known stream-info field absent from the wire mapping
keeps its zero/default value without failing the decode; in particular the
concrete mapping missing the "groups" field decodes successfully to a
record with groups = 0 and all present fields populated. -/
theorem stream_info_absent_fields_default :
    (∀ (map : HashMap Value) (r : StreamInfoStreamsReply),
      StreamInfoStreamsReply.fromMap map = .ok r →
        (map.get "last-generated-id" = none → r.last_generated_id = "") ∧
        (map.get "radix-tree-nodes" = none → r.radix_tree_keys = 0) ∧
        (map.get "groups" = none → r.groups = 0) ∧
        (map.get "length" = none → r.length = 0) ∧
        (map.get "first-entry" = none → r.first_entry = { id := "", map := ⟨[]⟩ }) ∧
        (map.get "last-entry" = none → r.last_entry = { id := "", map := ⟨[]⟩ })) ∧
    StreamInfoStreamsReply.from_redis_value (Value.Bulk
      [Value.Data "last-generated-id", Value.Data "5-0",
       Value.Data "radix-tree-nodes", Value.Int 2,
       Value.Data "length", Value.Int 5,
       Value.Data "first-entry", mkEntryValue "1-0" [("f", "v")],
       Value.Data "last-entry", mkEntryValue "5-0" [("g", "w")]])
    = .ok { last_generated_id := "5-0", radix_tree_keys := 2, groups := 0, length := 5,
            first_entry := { id := "1-0", map := ⟨[("f", Value.Data "v")]⟩ },
            last_entry := { id := "5-0", map := ⟨[("g", Value.Data "w")]⟩ } } := by
  constructor
  · intro map r h
    have hf := fromMap_fields map r h
    refine ⟨?_, ?_, ?_, ?_, ?_, ?_⟩ <;> intro hnone
    · have h1 := hf.1
      rw [hnone] at h1
      exact (Except.ok.inj h1).symm
    · have h1 := hf.2.1
      rw [hnone] at h1
      exact (Except.ok.inj h1).symm
    · have h1 := hf.2.2.1
      rw [hnone] at h1
      exact (Except.ok.inj h1).symm
    · have h1 := hf.2.2.2.1
      rw [hnone] at h1
      exact (Except.ok.inj h1).symm
    · have h1 := hf.2.2.2.2.1
      rw [hnone] at h1
      exact (Except.ok.inj h1).symm
    · have h1 := hf.2.2.2.2.2
      rw [hnone] at h1
      exact (Except.ok.inj h1).symm
  · rfl

/-- Witness for claim C6: a concrete mapping holding only "length" decodes
with groups left at its default 0. -/
theorem stream_info_absent_fields_default_witness :
    ({ length := 5 } : StreamInfoStreamsReply).groups = 0 :=
  (stream_info_absent_fields_default.1 ⟨[("length", Value.Int 5)]⟩
    { length := 5 } rfl).2.2.1 rfl

/-- Claim C9: any non-sequence wire value (nil included) decodes via
`StreamId::from_bulk_value` to `Ok` of the default entry (empty id, empty
field map), and the stream-info decode therefore represents a nil
first-entry / last-entry as exactly that default entry. -/
theorem from_bulk_value_non_bulk_default :
    (∀ v : Value, v.isBulk = false →
      StreamId.from_bulk_value v = .ok { id := "", map := ⟨[]⟩ }) ∧
    (∀ (map : HashMap Value) (r : StreamInfoStreamsReply),
      StreamInfoStreamsReply.fromMap map = .ok r →
        (map.get "first-entry" = some Value.Nil →
          r.first_entry = { id := "", map := ⟨[]⟩ }) ∧
        (map.get "last-entry" = some Value.Nil →
          r.last_entry = { id := "", map := ⟨[]⟩ })) := by
  constructor
  · intro v hv
    cases v with
    | Bulk items => simp [Value.isBulk] at hv
    | Nil => rfl
    | Int i => rfl
    | Data s => rfl
    | Status s => rfl
    | Okay => rfl
  · intro map r h
    have hf := fromMap_fields map r h
    constructor <;> intro hsome
    · have h1 := hf.2.2.2.2.1
      rw [hsome] at h1
      have h2 : (Except.ok { id := "", map := ⟨[]⟩ } : RedisResult StreamId)
          = .ok r.first_entry := h1
      exact (Except.ok.inj h2).symm
    · have h1 := hf.2.2.2.2.2
      rw [hsome] at h1
      have h2 : (Except.ok { id := "", map := ⟨[]⟩ } : RedisResult StreamId)
          = .ok r.last_entry := h1
      exact (Except.ok.inj h2).symm

/-- Witness for claim C9: nil itself decodes to the default entry, and a
stream-info mapping with a nil first-entry yields that default entry. -/
theorem from_bulk_value_non_bulk_default_witness :
    StreamId.from_bulk_value Value.Nil = .ok { id := "", map := ⟨[]⟩ } ∧
    ({} : StreamInfoStreamsReply).first_entry = { id := "", map := ⟨[]⟩ } :=
  ⟨from_bulk_value_non_bulk_default.1 Value.Nil rfl,
   (from_bulk_value_non_bulk_default.2 ⟨[("first-entry", Value.Nil)]⟩ {} rfl).1 rfl⟩

/-- Claim C10: the pending-detail decoder builds each record exclusively
from the first 4-tuple of its row; when every decoded row is non-empty
the indexing is in bounds and decode returns Ok with exactly one record
per row. -/
theorem pending_detail_uses_first_tuple
    (v : Value) (rows : List (List (String × String × Nat × Nat)))
    (hdec : fromValueVec (fromValueVec
        (fromValueQuad fromValueString fromValueString fromValueUsize fromValueUsize)) v
      = .ok rows)
    (hne : ∀ row ∈ rows, row ≠ []) :
    StreamPendingCountReply.from_redis_value v
      = some (.ok { ids := rows.map (fun row =>
          { id := row.headI.1
            consumer := row.headI.2.1
            last_delivered_ms := row.headI.2.2.1
            times_delivered := row.headI.2.2.2 }) }) := by
  have hrows : ∀ row ∈ rows, buildPendingId row
      = some { id := row.headI.1
               consumer := row.headI.2.1
               last_delivered_ms := row.headI.2.2.1
               times_delivered := row.headI.2.2.2 } := by
    intro row hrow
    cases row with
    | nil => exact absurd rfl (hne [] hrow)
    | cons t rest => simp [buildPendingId, List.headI]
  have hmapM := mapM_option_some buildPendingId
    (fun row => { id := row.headI.1
                  consumer := row.headI.2.1
                  last_delivered_ms := row.headI.2.2.1
                  times_delivered := row.headI.2.2.2 })
    rows hrows
  unfold StreamPendingCountReply.from_redis_value
  simp only [hdec, hmapM]

/-- Witness for claim C10: a single row holding two 4-tuples decodes to
one record built from the first tuple only. -/
theorem pending_detail_uses_first_tuple_witness :
    StreamPendingCountReply.from_redis_value
      (Value.Bulk [Value.Bulk
        [Value.Bulk [Value.Data "1-1", Value.Data "c1", Value.Int 10, Value.Int 2],
         Value.Bulk [Value.Data "9-9", Value.Data "zz", Value.Int 99, Value.Int 9]]])
      = some (.ok { ids := [{ id := "1-1", consumer := "c1",
                              last_delivered_ms := 10, times_delivered := 2 }] }) :=
  pending_detail_uses_first_tuple
    (Value.Bulk [Value.Bulk
      [Value.Bulk [Value.Data "1-1", Value.Data "c1", Value.Int 10, Value.Int 2],
       Value.Bulk [Value.Data "9-9", Value.Data "zz", Value.Int 99, Value.Int 9]]])
    [[("1-1", "c1", 10, 2), ("9-9", "zz", 99, 9)]]
    rfl
    (by
      intro row hrow
      rw [List.mem_singleton] at hrow
      subst hrow
      simp)

/-! ### Claim C2: read-reply decode structure -/

theorem pairUp_fieldTokens (fs : List (String × String)) :
    pairUp (mkFieldTokens fs) = fs.map (fun p => (Value.Data p.1, Value.Data p.2)) := by
  induction fs with
  | nil => rfl
  | cons p fs ih =>
    simp only [mkFieldTokens, List.flatMap_cons, List.cons_append, List.nil_append]
    simp only [mkFieldTokens] at ih
    simp [pairUp, ih]

theorem fromValueHashMap_fieldTokens (fs : List (String × String)) :
    fromValueHashMap fromValueValue (Value.Bulk (mkFieldTokens fs))
      = .ok (HashMap.ofList (fs.map (fun p => (p.1, Value.Data p.2)))) := by
  simp only [fromValueHashMap, pairUp_fieldTokens]
  rw [foldlM_map_except_ok
      (fun (m : HashMap Value) (kv : Value × Value) => do
        let k ← fromValueString kv.1
        let v ← fromValueValue kv.2
        pure (m.insert k v))
      (fun (p : String × String) => (Value.Data p.1, Value.Data p.2))
      (fun (m : HashMap Value) (p : String × String) => m.insert p.1 (Value.Data p.2))
      fs ⟨[]⟩ (fun b a _ => rfl)]
  rw [HashMap.ofList, List.foldl_map]

/-- Decoding a single-entry mapping wire value `[key, v]`. -/
theorem fromValueHashMap_pairlist (f : Value → RedisResult α) (k : String)
    (v : Value) (x : α) (hx : f v = .ok x) :
    fromValueHashMap f (Value.Bulk [Value.Data k, v]) = .ok ⟨[(k, x)]⟩ := by
  simp only [fromValueHashMap, pairUp, List.foldlM_cons, List.foldlM_nil,
    fromValueString, hx, exceptBind_ok, exceptPure]
  simp [HashMap.insert]

theorem decode_entryValue (id : String) (fs : List (String × String)) :
    fromValueHashMap (fromValueHashMap fromValueValue) (mkEntryValue id fs)
      = .ok ⟨[(id, HashMap.ofList (fs.map (fun p => (p.1, Value.Data p.2))))]⟩ :=
  fromValueHashMap_pairlist _ id _ _ (fromValueHashMap_fieldTokens fs)

theorem decode_entriesValue (entries : List (String × List (String × String))) :
    fromValueVec (fromValueHashMap (fromValueHashMap fromValueValue))
      (Value.Bulk (entries.map (fun e => mkEntryValue e.1 e.2)))
      = .ok (entries.map (fun e =>
          (⟨[(e.1, HashMap.ofList (e.2.map (fun p => (p.1, Value.Data p.2))))]⟩ :
            HashMap (HashMap Value)))) := by
  simp only [fromValueVec]
  exact mapM_map_except _ _ _ entries (fun a _ => decode_entryValue a.1 a.2)

theorem decode_keyValue (key : String) (entries : List (String × List (String × String))) :
    fromValueHashMap (fromValueVec (fromValueHashMap (fromValueHashMap fromValueValue)))
      (mkKeyValue key entries)
      = .ok ⟨[(key, entries.map (fun e =>
          (⟨[(e.1, HashMap.ofList (e.2.map (fun p => (p.1, Value.Data p.2))))]⟩ :
            HashMap (HashMap Value))))]⟩ :=
  fromValueHashMap_pairlist _ key _ _ (decode_entriesValue entries)

/-- Claim C2: decoding any well-formed read-reply wire value (an ordered
sequence of single-entry key mappings, each key mapped to an ordered
sequence of (id, field-map) pairs) yields one KeyedEntries per key in wire
order, each holding its entries in wire order; in particular the concrete
two-key two-entry reply decodes to two keys with two entries each, in
order. -/
theorem read_reply_decode_preserves_order :
    (∀ ks : List (String × List (String × List (String × String))),
      StreamReadReply.from_redis_value (mkReadReplyValue ks)
        = .ok { keys := ks.map expectedKey }) ∧
    StreamReadReply.from_redis_value (mkReadReplyValue
      [("k1", [("1-1", [("a", "x")]), ("1-2", [("b", "y")])]),
       ("k2", [("2-1", []), ("2-2", [("c", "z")])])])
      = .ok { keys :=
          [{ key := "k1", ids := [{ id := "1-1", map := ⟨[("a", Value.Data "x")]⟩ },
                                  { id := "1-2", map := ⟨[("b", Value.Data "y")]⟩ }] },
           { key := "k2", ids := [{ id := "2-1", map := ⟨[]⟩ },
                                  { id := "2-2", map := ⟨[("c", Value.Data "z")]⟩ }] }] } := by
  constructor
  · intro ks
    have hdec := mapM_map_except
      (fromValueHashMap (fromValueVec (fromValueHashMap (fromValueHashMap fromValueValue))))
      (fun k => mkKeyValue k.1 k.2)
      (fun k => (⟨[(k.1, k.2.map (fun e =>
        (⟨[(e.1, HashMap.ofList (e.2.map (fun p => (p.1, Value.Data p.2))))]⟩ :
          HashMap (HashMap Value))))]⟩ : HashMap (List (HashMap (HashMap Value)))))
      ks (fun a _ => decode_keyValue a.1 a.2)
    unfold StreamReadReply.from_redis_value mkReadReplyValue
    simp only [fromValueVec, hdec, exceptBind_ok, exceptPure]
    clear hdec
    congr 1
    congr 1
    induction ks with
    | nil => rfl
    | cons k ks ih =>
      simp only [List.map_cons, List.flatMap_cons, ih]
      simp [expectedKey, List.map_map]
  · rfl

/-! ### Claim C3: pending-summary decode -/

/-- Claim C3: a well-formed pending-summary wire value decodes to its
count (any count below 2^64), start id, end id, and one consumer per
wire pair with the pending count parsed from its string, a non-numeric
string leaving that count at zero while the decode still succeeds. -/
theorem pending_summary_decode
    (count : Nat) (sid eid : String) (consumers : List (String × String))
    (hcount : count < 2 ^ 64) :
    StreamPendingReply.from_redis_value (mkPendingSummaryValue count sid eid consumers)
      = some (.ok { count := count
                    start_id := sid
                    end_id := eid
                    consumers := consumers.map (fun c =>
                      { name := c.1, pending := (parseUsize c.2).getD 0, idle := 0 }) }) := by
  have husize : usizeOfInt count = count := by
    unfold usizeOfInt
    omega
  have hvec : fromValueVec (fromValueVec fromValueString)
      (Value.Bulk (consumers.map (fun c => Value.Bulk [Value.Data c.1, Value.Data c.2])))
      = .ok (consumers.map (fun c => [c.1, c.2])) := by
    simp only [fromValueVec]
    exact mapM_map_except _ _ _ consumers (fun a _ => rfl)
  have hbuild : (consumers.map (fun c => [c.1, c.2])).mapM buildPendingConsumer
      = some (consumers.map (fun c =>
            ({ name := c.1, pending := (parseUsize c.2).getD 0, idle := 0 } :
              StreamInfoConsumer))) := by
    apply mapM_map_option
    intro c _
    cases hp : parseUsize c.2 <;> simp [buildPendingConsumer, hp]
  unfold StreamPendingReply.from_redis_value mkPendingSummaryValue
  simp only [fromValueQuad, fromValueUsize, fromValueString, husize, hvec,
    exceptBind_ok, exceptPure, hbuild]

/-- Witness for claim C3 at the spec's concrete pending-summary value. -/
theorem pending_summary_decode_witness :
    StreamPendingReply.from_redis_value
        (mkPendingSummaryValue 4 "1-1" "4-1" [("consumer-a", "2"), ("consumer-b", "2")])
      = some (.ok { count := 4
                    start_id := "1-1"
                    end_id := "4-1"
                    consumers := [{ name := "consumer-a", pending := 2, idle := 0 },
                                  { name := "consumer-b", pending := 2, idle := 0 }] }) :=
  pending_summary_decode 4 "1-1" "4-1" [("consumer-a", "2"), ("consumer-b", "2")]
    (by norm_num)

end RedisStreams
